import Mathlib

/-!
Verification of the plagiarism detection engine of the assignment system.

The Python sources embedded here are
`services/plagiarism-service/app/services/plagiarism_service.py` (text
extraction, normalization, cosine similarity, pairwise comparison) and
`services/plagiarism-service/app/api/plagiarism.py` (the background run that
persists matches and the report query).  Python strings are modelled as Lean
`String`s (code-point lists), Python `float`/`Decimal` similarity scores as
`ℝ`, the database session as an explicit record of row lists, and the
filesystem together with the external parsing libraries (PyPDF2, python-docx,
openpyxl) as an explicit environment record whose readers may fail
(`Except`), mirroring the `try`/`except` structure of the source.
-/

namespace Plag

/-! ### Text normalization (`preprocess_text`, `tokenize`)

`preprocess_text` mirrors the source exactly: lowercase, collapse each
whitespace run to a single space (`re.sub(r'\s+', ' ', text)`), drop every
character outside lowercase letters, digits and whitespace
(`re.sub(r'[^a-z0-9\s]', '', text)`), then `str.strip()`. -/

/-- One character of `text.lower()` (ASCII case mapping). -/
def pyLower (l : List Char) : List Char := l.map Char.toLower

/-- Replace every maximal whitespace run by a single space, as the source's
whitespace regex substitution does.  `inRun` records whether the previous
character belonged to a whitespace run already replaced. -/
def collapseWsAux : Bool → List Char → List Char
  | _, [] => []
  | inRun, c :: cs =>
    if c.isWhitespace then
      if inRun then collapseWsAux true cs else ' ' :: collapseWsAux true cs
    else c :: collapseWsAux false cs

/-- `re.sub(r'\s+', ' ', text)`. -/
def collapseWs (l : List Char) : List Char := collapseWsAux false l

/-- Characters kept by `re.sub(r'[^a-z0-9\s]', '', text)`. -/
def keepAllowedChar (c : Char) : Bool :=
  (decide ('a' ≤ c) && decide (c ≤ 'z')) ||
  (decide ('0' ≤ c) && decide (c ≤ '9')) || c.isWhitespace

/-- Python `str.strip()`: drop leading and trailing whitespace. -/
def stripChars (l : List Char) : List Char :=
  ((l.dropWhile Char.isWhitespace).reverse.dropWhile Char.isWhitespace).reverse

/-- `preprocess_text` from `plagiarism_service.py`: lowercase, collapse
whitespace, remove special characters, strip. -/
def preprocess_text (s : String) : String :=
  ⟨stripChars ((collapseWs (pyLower s.data)).filter keepAllowedChar)⟩

/-- Accumulating splitter for Python `str.split()` (split on whitespace runs,
no empty tokens); `acc` is the current token reversed. -/
def tokenizeAux : List Char → List Char → List (List Char)
  | acc, [] => if acc.isEmpty then [] else [acc.reverse]
  | acc, c :: cs =>
    if c.isWhitespace then
      if acc.isEmpty then tokenizeAux [] cs else acc.reverse :: tokenizeAux [] cs
    else tokenizeAux (c :: acc) cs

/-- `tokenize` from `plagiarism_service.py`: `text.split()`. -/
def tokenize (s : String) : List String :=
  (tokenizeAux [] s.data).map fun cs => String.mk cs

/-! ### The extraction environment

`extract_text_from_file` touches the filesystem and three optional parsing
libraries.  Each library import may fail (`ImportError` branch), each read
may fail (the surrounding `try`/`except`), and a PDF page extraction may fail
individually.  All of that is captured by this record; `Except.error` marks a
raised exception. -/

/-- The filesystem and the external parsing libraries seen by
`extract_text_from_file`.  A `none` library models a failed import.  A PDF
read yields the list of pages, each page being the outcome of
`page.extract_text()`.  A DOCX read yields the paragraph texts, an XLSX read
yields sheets of rows of cells (`none` cell = Python `None`). -/
structure ExtractEnv where
  fileExists : String → Bool
  pdfLib : Option (String → Except String (List (Except String String)))
  docxLib : Option (String → Except String (List String))
  xlsxLib : Option (String → Except String (List (List (List (Option String)))))
  readTextFile : String → Except String String

/-- The PDF page loop `for page in pdf_reader.pages: text += page.extract_text() + "\n"`:
a raised exception on any page propagates and discards the accumulated text. -/
def pdfPagesText : List (Except String String) → Except String String
  | [] => Except.ok ""
  | page :: rest =>
    match page with
    | Except.error e => Except.error e
    | Except.ok t =>
      match pdfPagesText rest with
      | Except.error e => Except.error e
      | Except.ok r => Except.ok (t ++ "\n" ++ r)

/-- `extract_text_from_pdf`: import failure, reader failure or any page
failure all reach an `except` branch returning `""`. -/
def extract_text_from_pdf
    (lib : Option (String → Except String (List (Except String String))))
    (file_path : String) : String :=
  match lib with
  | none => ""
  | some readPdf =>
    match readPdf file_path with
    | Except.error _ => ""
    | Except.ok pages =>
      match pdfPagesText pages with
      | Except.error _ => ""
      | Except.ok text => text

/-- `extract_text_from_docx`: `"\n".join(paragraph.text for paragraph in doc.paragraphs)`,
with import or read failure yielding `""`. -/
def extract_text_from_docx
    (lib : Option (String → Except String (List String)))
    (file_path : String) : String :=
  match lib with
  | none => ""
  | some readDocx =>
    match readDocx file_path with
    | Except.error _ => ""
    | Except.ok paragraphs => String.intercalate "\n" paragraphs

/-- One XLSX row: `" ".join(str(cell) if cell is not None else "" for cell in row)`. -/
def xlsxRowText (row : List (Option String)) : String :=
  String.intercalate " " (row.map fun c => c.getD "")

/-- `extract_text_from_xlsx`: every sheet, every row; a row is appended (with
a trailing newline) only when `row_text.strip()` is nonempty. -/
def extract_text_from_xlsx
    (lib : Option (String → Except String (List (List (List (Option String))))))
    (file_path : String) : String :=
  match lib with
  | none => ""
  | some readXlsx =>
    match readXlsx file_path with
    | Except.error _ => ""
    | Except.ok sheets =>
      (sheets.flatMap id).foldl
        (fun text row =>
          let row_text := xlsxRowText row
          if (⟨stripChars row_text.data⟩ : String) ≠ "" then text ++ row_text ++ "\n"
          else text)
        ""

/-- Final path component (chars after the last `/`). -/
def lastComponent (l : List Char) : List Char :=
  (l.reverse.takeWhile fun c => c ≠ '/').reverse

/-- `pathlib.Path(p).suffix`: the substring of the final component from its
last dot, empty when there is no dot, when the dot is the leading character
(hidden file) or when the dot is the last character. -/
def pySuffix (p : String) : String :=
  let name := lastComponent p.data
  let after := name.reverse.takeWhile fun c => c ≠ '.'
  if after.length = name.length then ""
  else if name.length = after.length + 1 ∧ name.headD ' ' = '.' then ""
  else if after.length = 0 then ""
  else ⟨'.' :: after.reverse⟩

/-- `Path(file_path).suffix.lower()`. -/
def fileExt (p : String) : String := ⟨pyLower (pySuffix p).data⟩

/-- `extract_text_from_file`: dispatch on the lowercased extension; `.txt`,
the empty extension and every unrecognized extension are read as UTF-8 text
(decode errors are ignored by the source, a failed read reaches the outer
`except` and yields `""`); a missing file yields `""`. -/
def extract_text_from_file (env : ExtractEnv) (file_path : String) : String :=
  if env.fileExists file_path = false then ""
  else
    let file_ext := fileExt file_path
    if file_ext = ".pdf" then extract_text_from_pdf env.pdfLib file_path
    else if file_ext = ".docx" ∨ file_ext = ".doc" then
      extract_text_from_docx env.docxLib file_path
    else if file_ext = ".xlsx" ∨ file_ext = ".xls" then
      extract_text_from_xlsx env.xlsxLib file_path
    else if file_ext = ".txt" ∨ file_ext = "" then
      match env.readTextFile file_path with
      | Except.ok s => s
      | Except.error _ => ""
    else
      match env.readTextFile file_path with
      | Except.ok s => s
      | Except.error _ => ""

/-- Every condition under which `extract_text_from_file` hits a failure path:
the file is missing, or the extractor selected by the extension fails (import
failure, reader exception, or — for PDF — any page exception; for the text
branches, a read exception). -/
def extractionFails (env : ExtractEnv) (file_path : String) : Prop :=
  env.fileExists file_path = false ∨
  (let file_ext := fileExt file_path
   if file_ext = ".pdf" then
     env.pdfLib = none ∨
       ∃ readPdf, env.pdfLib = some readPdf ∧
         ((∃ e, readPdf file_path = Except.error e) ∨
          ∃ pages, readPdf file_path = Except.ok pages ∧
            ∃ e, pdfPagesText pages = Except.error e)
   else if file_ext = ".docx" ∨ file_ext = ".doc" then
     env.docxLib = none ∨
       ∃ readDocx, env.docxLib = some readDocx ∧
         ∃ e, readDocx file_path = Except.error e
   else if file_ext = ".xlsx" ∨ file_ext = ".xls" then
     env.xlsxLib = none ∨
       ∃ readXlsx, env.xlsxLib = some readXlsx ∧
         ∃ e, readXlsx file_path = Except.error e
   else ∃ e, env.readTextFile file_path = Except.error e)

/-! ### Cosine similarity

Python floats are modelled as `ℝ`; `round(x, 2)` as integer rounding of
`x * 100` scaled back (Python rounds ties to even, Mathlib's `round` rounds
ties up — the two agree everywhere the claims are evaluated, no score below
is a tie).  `Counter` lookups are `List.count` on the token list. -/

open scoped Classical

/-- Python `round(x, 2)`. -/
noncomputable def round2 (x : ℝ) : ℝ := ((round (x * 100) : ℤ) : ℝ) / 100

/-- The body of `calculate_cosine_similarity` after preprocessing and
tokenization: return `0.0` when either token list is empty, build the
frequency vectors (`Counter` lookups) over the union vocabulary, return `0.0`
when either magnitude is zero, otherwise the rounded percentage of
`dot / (magnitude1 * magnitude2)`. -/
noncomputable def cosineTokens (tokens1 tokens2 : List String) : ℝ :=
  if tokens1 = [] ∨ tokens2 = [] then 0
  else
    let all_words := (tokens1 ++ tokens2).dedup
    let vec1 := all_words.map fun word => tokens1.count word
    let vec2 := all_words.map fun word => tokens2.count word
    let dot_product := ((vec1.zip vec2).map fun p => p.1 * p.2).sum
    let magnitude1 := Real.sqrt (((vec1.map fun a => a * a).sum : ℕ) : ℝ)
    let magnitude2 := Real.sqrt (((vec2.map fun b => b * b).sum : ℕ) : ℝ)
    if magnitude1 = 0 ∨ magnitude2 = 0 then 0
    else round2 ((dot_product : ℝ) / (magnitude1 * magnitude2) * 100)

/-- `calculate_cosine_similarity` from `plagiarism_service.py`: preprocess
and tokenize both texts, then score them as `cosineTokens` does. -/
noncomputable def calculate_cosine_similarity (text1 text2 : String) : ℝ :=
  cosineTokens (tokenize (preprocess_text text1)) (tokenize (preprocess_text text2))

/-- `compare_submissions` from `plagiarism_service.py`: extract both texts,
return `Decimal("0.00")` when either raw extracted text has fewer than 50
characters, otherwise the cosine similarity. -/
noncomputable def compare_submissions (env : ExtractEnv) (file_path1 file_path2 : String) : ℝ :=
  let text1 := extract_text_from_file env file_path1
  let text2 := extract_text_from_file env file_path2
  if text1.length < 50 ∨ text2.length < 50 then 0
  else calculate_cosine_similarity text1 text2

/-- `compare_all_files_in_submissions`: running maximum (strict improvement
test, started at `Decimal("0.00")`) of `compare_submissions` over every file
pair; a file is a `(file_id, file_path)` tuple. -/
noncomputable def compare_all_files_in_submissions (env : ExtractEnv)
    (submission1_files submission2_files : List (String × String)) : ℝ :=
  submission1_files.foldl
    (fun acc f1 =>
      submission2_files.foldl
        (fun max_similarity f2 =>
          let similarity := compare_submissions env f1.2 f2.2
          if max_similarity < similarity then similarity else max_similarity)
        acc)
    0

/-- One element of the `submission_data` list handed to
`compare_all_submissions`: `(submission_id, student_id, files)`. -/
structure SubmissionData where
  submission_id : String
  student_id : String
  files : List (String × String)
deriving Repr

/-- The body of the double loop in `compare_all_submissions` for one pair
`(i, j)`: skip (`continue`) when both submissions belong to one student or
either has no files, keep the file-set score only when it is strictly
positive. -/
noncomputable def pairOutcome (env : ExtractEnv) (s t : SubmissionData) :
    Option (String × String × ℝ) :=
  if s.student_id = t.student_id then none
  else if s.files = [] ∨ t.files = [] then none
  else
    let similarity := compare_all_files_in_submissions env s.files t.files
    if 0 < similarity then some (s.submission_id, t.submission_id, similarity)
    else none

/-- `compare_all_submissions`: every index pair `i < j`, skipping same-student
pairs and pairs where either submission has no files, keeping only scores
strictly above zero.  The head/tail recursion enumerates exactly the source's
double loop (`i` outer, `j` inner over later indices), in the same order. -/
noncomputable def compare_all_submissions (env : ExtractEnv) :
    List SubmissionData → List (String × String × ℝ)
  | [] => []
  | s :: rest =>
    (rest.filterMap fun t => pairOutcome env s t) ++ compare_all_submissions env rest

/-- The ordered pairs `i < j` of a submission list, in loop order. -/
def subPairs : List SubmissionData → List (SubmissionData × SubmissionData)
  | [] => []
  | s :: rest => (rest.map fun t => (s, t)) ++ subPairs rest

/-- Spec-side auxiliary (from the words of §4.4 of the spec): the pairwise
scores over the cartesian product of the two file lists. -/
noncomputable def pairScores (env : ExtractEnv)
    (files1 files2 : List (String × String)) : List ℝ :=
  (files1 ×ˢ files2).map fun p => compare_submissions env p.1.2 p.2.2

/-! ### Database rows and the background run (`api/plagiarism.py`) -/

/-- A `users` row (only the fields the report reads). -/
structure UserRow where
  id : String
  full_name : String

/-- A `submissions` row; `files` holds `(file.id, file.file_path)` pairs in
relationship order. -/
structure SubmissionRow where
  id : String
  assignment_id : String
  student_id : String
  files : List (String × String)

/-- A `plagiarism_matches` row. -/
structure MatchRow where
  id : String
  assignment_id : String
  submission1_id : String
  submission2_id : String
  similarity_score : ℝ
  checked_at : String

/-- The database state visible to the plagiarism endpoints. -/
structure Db where
  users : List UserRow
  submissions : List SubmissionRow
  plagiarism_matches : List MatchRow

/-- The `submission_data` preparation inside `run_plagiarism_check`: keep a
submission when its file list is nonempty and at least one file exists on
disk after resolving against `UPLOAD_DIR` (`resolve`); each kept file becomes
`(str(file.id), str(resolved path))`. -/
def eligibleRow (env : ExtractEnv) (resolve : String → String)
    (s : SubmissionRow) : Option SubmissionData :=
  if s.files = [] then none
  else
    let files := (s.files.filter fun f => env.fileExists (resolve f.2)).map
      fun f => (f.1, resolve f.2)
    if files = [] then none
    else some ⟨s.id, s.student_id, files⟩

/-- `submission_data` over the whole submission list. -/
def eligibleData (env : ExtractEnv) (resolve : String → String)
    (subs : List SubmissionRow) : List SubmissionData :=
  subs.filterMap (eligibleRow env resolve)

/-- The canonicalization `if sub1_id > sub2_id: sub1_id, sub2_id = sub2_id, sub1_id`.
Python compares the `str(uuid)` values lexicographically by code point, which
is exactly the `List Char` lexicographic order on `String.data`. -/
def canonicalPair (r : String × String × ℝ) : String × String × ℝ :=
  if r.2.1.data < r.1.data then (r.2.1, r.1, r.2.2) else r

/-- The rows `run_plagiarism_check` inserts for `assignment_id`: one
`PlagiarismMatch` per comparison result, ids canonicalized, `id` and
`checked_at` filled by the column defaults (`uuid k` for the `k`-th insert,
`now`). -/
noncomputable def insertedRows (env : ExtractEnv)
    (uuid : ℕ → String) (now : String) (assignment_id : String)
    (data : List SubmissionData) : List MatchRow :=
  (compare_all_submissions env data).enum.map fun kr =>
    let c := canonicalPair kr.2
    { id := uuid kr.1, assignment_id := assignment_id, submission1_id := c.1,
      submission2_id := c.2.1, similarity_score := c.2.2, checked_at := now }

/-- `run_plagiarism_check` from `api/plagiarism.py` as a transition on the
database state: query the assignment's submissions, return unchanged when
fewer than two, build `submission_data`, return unchanged when fewer than two
eligible, otherwise compare, delete every existing match row of the
assignment and insert the new ones (one committed transaction). -/
noncomputable def run_plagiarism_check (env : ExtractEnv) (resolve : String → String)
    (uuid : ℕ → String) (now : String) (assignment_id : String) (db : Db) : Db :=
  let submissions := db.submissions.filter fun s => s.assignment_id == assignment_id
  if submissions.length < 2 then db
  else
    let submission_data := eligibleData env resolve submissions
    if submission_data.length < 2 then db
    else
      let kept := db.plagiarism_matches.filter fun m => !(m.assignment_id == assignment_id)
      { db with plagiarism_matches :=
          kept ++ insertedRows env uuid now assignment_id submission_data }

/-- The persisted content of a match row, for comparing a stored snapshot
against a run's computed output independently of generated metadata. -/
def rowContent (m : MatchRow) : String × String × ℝ :=
  (m.submission1_id, m.submission2_id, m.similarity_score)

/-! ### The report query (`get_plagiarism_report`, lines 184-245) -/

/-- The `"student1"` / `"student2"` sub-dict of a report entry. -/
structure StudentInfo where
  id : String
  full_name : String

/-- One entry of the report's `matches` list. -/
structure MatchResponse where
  id : String
  assignment_id : String
  submission1_id : String
  submission2_id : String
  similarity_score : ℝ
  checked_at : String
  student1 : StudentInfo
  student2 : StudentInfo

/-- The `PlagiarismReportResponse` DTO. -/
structure PlagiarismReport where
  assignment_id : String
  total_submissions : ℕ
  total_comparisons : ℕ
  matchEntries : List MatchResponse
  high_similarity_count : ℕ
  medium_similarity_count : ℕ

/-- The loop body building one report entry: look up both submissions
(`continue` when either was deleted), then both students (`continue` when
either is missing), then assemble the dict. -/
def resolveMatch (db : Db) (m : MatchRow) : Option MatchResponse :=
  match db.submissions.find? fun s => s.id == m.submission1_id with
  | none => none
  | some sub1 =>
    match db.submissions.find? fun s => s.id == m.submission2_id with
    | none => none
    | some sub2 =>
      match db.users.find? fun u => u.id == sub1.student_id with
      | none => none
      | some student1 =>
        match db.users.find? fun u => u.id == sub2.student_id with
        | none => none
        | some student2 =>
          some { id := m.id, assignment_id := m.assignment_id,
                 submission1_id := m.submission1_id,
                 submission2_id := m.submission2_id,
                 similarity_score := m.similarity_score,
                 checked_at := m.checked_at,
                 student1 := ⟨student1.id, student1.full_name⟩,
                 student2 := ⟨student2.id, student2.full_name⟩ }

/-- `get_plagiarism_report` (lines 184-245, after the auth guards): all of
the assignment's matches ordered by score descending, the threshold-filtered
entry list with the unresolvable rows skipped, and the severity counts over
the unfiltered set. -/
noncomputable def get_plagiarism_report (db : Db) (assignment_id : String)
    (threshold : ℝ) : PlagiarismReport :=
  let all_matches :=
    (db.plagiarism_matches.filter fun m => m.assignment_id == assignment_id).mergeSort
      fun a b => decide (b.similarity_score ≤ a.similarity_score)
  let thresholded := all_matches.filter fun m => decide (threshold ≤ m.similarity_score)
  let match_responses := thresholded.filterMap (resolveMatch db)
  let high_similarity :=
    (all_matches.filter fun m => decide (70 < m.similarity_score)).length
  let medium_similarity :=
    (all_matches.filter fun m =>
      decide (50 ≤ m.similarity_score ∧ m.similarity_score ≤ 70)).length
  let total_submissions :=
    (db.submissions.filter fun s => s.assignment_id == assignment_id).length
  { assignment_id := assignment_id, total_submissions := total_submissions,
    total_comparisons := all_matches.length, matchEntries := match_responses,
    high_similarity_count := high_similarity,
    medium_similarity_count := medium_similarity }

/-! ### Concrete data used by counterexamples and witnesses -/

/-- Fifty characters of raw text (2 letters, 48 punctuation marks) whose
normalized form is the 2-character string `"ab"`. -/
def longText : String := "ab!!!!!!!!!!!!!!!!!!!!!!!!!!!!!!!!!!!!!!!!!!!!!!!!"

/-- An environment where every path exists and reads as the given text. -/
def envTxt (content : String) : ExtractEnv :=
  { fileExists := fun _ => true, pdfLib := none, docxLib := none,
    xlsxLib := none, readTextFile := fun _ => Except.ok content }

/-- Every file reads as `longText`. -/
def envLong : ExtractEnv := envTxt longText

/-- Every file reads as the 5-character text `"short"`. -/
def envShort : ExtractEnv := envTxt ("short")

/-- An environment where no file exists. -/
def envMissing : ExtractEnv :=
  { fileExists := fun _ => false, pdfLib := none, docxLib := none,
    xlsxLib := none, readTextFile := fun _ => Except.error "io" }

/-- A PDF library whose single document has a good first page and a failing
second page. -/
def envPdfBadPage : ExtractEnv :=
  { fileExists := fun _ => true,
    pdfLib := some fun _ => Except.ok [Except.ok "hello", Except.error "bad page"],
    docxLib := none, xlsxLib := none, readTextFile := fun _ => Except.error "io" }

/-- The same document with the failing page removed. -/
def envPdfGood : ExtractEnv :=
  { fileExists := fun _ => true,
    pdfLib := some fun _ => Except.ok [Except.ok "hello"],
    docxLib := none, xlsxLib := none, readTextFile := fun _ => Except.error "io" }

/-- Submission of student `stu1` with one file. -/
def subRow1 : SubmissionRow := ⟨"s1", "a1", "stu1", [("fid1", "f1.txt")]⟩

/-- Submission of student `stu2` with one file. -/
def subRow2 : SubmissionRow := ⟨"s2", "a1", "stu2", [("fid2", "f2.txt")]⟩

/-- A stored match row from an earlier run. -/
def staleRow : MatchRow := ⟨"m0", "a1", "sOld1", "sOld2", 90, "t0"⟩

/-- A database holding a stale match for assignment `a1` and no submissions. -/
def dbStale : Db := ⟨[], [], [staleRow]⟩

/-- A database with two eligible submissions for `a1` and a stale match. -/
def dbTwo : Db := ⟨[], [subRow1, subRow2], [staleRow]⟩

/-- A stored match whose submissions are both `90`-scored and present. -/
def m90 : MatchRow := ⟨"m1", "a1", "s1", "s2", 90, "t1"⟩

/-- A database whose only match row references submissions that no longer
exist. -/
def dbDangling : Db := ⟨[], [], [m90]⟩

/-- A database where the only match row fully resolves. -/
def dbResolved : Db := ⟨[⟨"stu1", "Alice"⟩, ⟨"stu2", "Bob"⟩], [subRow1, subRow2], [m90]⟩

end Plag

namespace Plag

/-! ### Generic list and rounding lemmas -/

theorem round_mono' {x y : ℝ} (h : x ≤ y) : round x ≤ round y := by
  rw [round_eq, round_eq]
  exact Int.floor_le_floor (by linarith)

theorem round2_nonneg {x : ℝ} (hx : 0 ≤ x) : 0 ≤ round2 x := by
  unfold round2
  have h : (round ((0:ℝ)) : ℤ) ≤ round (x * 100) := round_mono' (by nlinarith)
  simp only [round_zero] at h
  have : (0:ℝ) ≤ ((round (x * 100) : ℤ) : ℝ) := by exact_mod_cast h
  linarith

theorem round2_le_100 {x : ℝ} (hx : x ≤ 100) : round2 x ≤ 100 := by
  unfold round2
  have h : (round (x * 100) : ℤ) ≤ round ((10000:ℝ)) := round_mono' (by nlinarith)
  have h10 : (round ((10000:ℝ)) : ℤ) = 10000 := by norm_num [round_eq]
  rw [h10] at h
  have : ((round (x * 100) : ℤ) : ℝ) ≤ 10000 := by exact_mod_cast h
  linarith

theorem ite_lt_eq_max (a b : ℝ) : (if a < b then b else a) = max a b := by
  rcases le_or_lt b a with h | h
  · rw [if_neg (not_lt.mpr h), max_eq_left h]
  · rw [if_pos h, max_eq_right h.le]

theorem le_foldl_max (l : List ℝ) (a : ℝ) : a ≤ l.foldl max a := by
  induction l generalizing a with
  | nil => exact le_refl a
  | cons x xs ih => exact le_trans (le_max_left a x) (ih (max a x))

theorem mem_le_foldl_max (l : List ℝ) (a x : ℝ) (hx : x ∈ l) : x ≤ l.foldl max a := by
  induction l generalizing a with
  | nil => cases hx
  | cons y ys ih =>
    rcases List.mem_cons.mp hx with rfl | hmem
    · exact le_trans (le_max_right a x) (le_foldl_max ys (max a x))
    · exact ih (max a y) hmem

theorem foldl_max_le (l : List ℝ) (a c : ℝ) (ha : a ≤ c) (h : ∀ x ∈ l, x ≤ c) :
    l.foldl max a ≤ c := by
  induction l generalizing a with
  | nil => exact ha
  | cons x xs ih =>
    exact ih (max a x) (max_le ha (h x (List.mem_cons_self x xs)))
      fun y hy => h y (List.mem_cons_of_mem x hy)

theorem foldl_max_mem (l : List ℝ) (a : ℝ) : l.foldl max a = a ∨ l.foldl max a ∈ l := by
  induction l generalizing a with
  | nil => exact Or.inl rfl
  | cons x xs ih =>
    rcases ih (max a x) with h | h
    · rcases le_or_lt x a with hxa | hxa
      · rw [List.foldl_cons] at *
        rw [h, max_eq_left hxa]
        exact Or.inl rfl
      · rw [List.foldl_cons] at *
        rw [h, max_eq_right hxa.le]
        exact Or.inr (List.mem_cons_self x xs)
    · exact Or.inr (List.mem_cons_of_mem x h)

theorem list_map_sum_fin {α : Type} (l : List α) (f : α → ℕ) :
    (l.map f).sum = ∑ i : Fin l.length, f (l.get i) := by
  conv_lhs => rw [← List.ofFn_get l]
  rw [List.map_ofFn, List.sum_ofFn]
  rfl

theorem list_cauchy_schwarz {α : Type} (l : List α) (f g : α → ℕ) :
    ((l.map fun x => f x * g x).sum) ^ 2 ≤
      ((l.map fun x => f x * f x).sum) * ((l.map fun x => g x * g x).sum) := by
  rw [list_map_sum_fin l fun x => f x * g x, list_map_sum_fin l fun x => f x * f x,
    list_map_sum_fin l fun x => g x * g x]
  have h := Finset.sum_mul_sq_le_sq_mul_sq Finset.univ
    (fun i : Fin l.length => f (l.get i)) (fun i : Fin l.length => g (l.get i))
  calc (∑ i : Fin l.length, f (l.get i) * g (l.get i)) ^ 2
      ≤ (∑ i : Fin l.length, f (l.get i) ^ 2) * ∑ i : Fin l.length, g (l.get i) ^ 2 := h
    _ = (∑ i : Fin l.length, f (l.get i) * f (l.get i)) *
          ∑ i : Fin l.length, g (l.get i) * g (l.get i) := by
        simp only [pow_two]

theorem le_list_sum_of_mem {l : List ℕ} {x : ℕ} (hx : x ∈ l) : x ≤ l.sum := by
  induction l with
  | nil => cases hx
  | cons y ys ih =>
    rcases List.mem_cons.mp hx with rfl | hmem
    · exact Nat.le_add_right x ys.sum
    · exact le_trans (ih hmem) (Nat.le_add_left ys.sum y)

end Plag

namespace Plag

/-! ### Cosine similarity lemmas -/

/-- Normal form of `cosineTokens`: the zipped frequency vectors collapse to
sums of per-word count products over the union vocabulary. -/
theorem cosineTokens_eq (tok1 tok2 : List String) :
    cosineTokens tok1 tok2 =
      if tok1 = [] ∨ tok2 = [] then 0
      else
        if Real.sqrt ((((tok1 ++ tok2).dedup.map fun w => tok1.count w * tok1.count w).sum : ℕ) : ℝ) = 0
            ∨ Real.sqrt ((((tok1 ++ tok2).dedup.map fun w => tok2.count w * tok2.count w).sum : ℕ) : ℝ) = 0
        then 0
        else round2 (((((tok1 ++ tok2).dedup.map fun w => tok1.count w * tok2.count w).sum : ℕ) : ℝ) /
          (Real.sqrt ((((tok1 ++ tok2).dedup.map fun w => tok1.count w * tok1.count w).sum : ℕ) : ℝ) *
            Real.sqrt ((((tok1 ++ tok2).dedup.map fun w => tok2.count w * tok2.count w).sum : ℕ) : ℝ)) * 100) := by
  unfold cosineTokens
  simp only [List.zip_map', List.map_map, Function.comp_def]

theorem cosineTokens_comm (tok1 tok2 : List String) :
    cosineTokens tok1 tok2 = cosineTokens tok2 tok1 := by
  rw [cosineTokens_eq, cosineTokens_eq]
  have pW : ((tok1 ++ tok2).dedup).Perm ((tok2 ++ tok1).dedup) :=
    (List.perm_append_comm).dedup
  have h11 : ((tok1 ++ tok2).dedup.map fun w => tok1.count w * tok1.count w).sum
      = ((tok2 ++ tok1).dedup.map fun w => tok1.count w * tok1.count w).sum :=
    (pW.map _).sum_eq
  have h22 : ((tok1 ++ tok2).dedup.map fun w => tok2.count w * tok2.count w).sum
      = ((tok2 ++ tok1).dedup.map fun w => tok2.count w * tok2.count w).sum :=
    (pW.map _).sum_eq
  have h12 : ((tok1 ++ tok2).dedup.map fun w => tok1.count w * tok2.count w).sum
      = ((tok2 ++ tok1).dedup.map fun w => tok2.count w * tok1.count w).sum := by
    have hfun : (fun w : String => tok1.count w * tok2.count w)
        = fun w => tok2.count w * tok1.count w := funext fun w => mul_comm _ _
    rw [hfun]
    exact (pW.map _).sum_eq
  rw [h11, h22, h12]
  by_cases hnil : tok1 = [] ∨ tok2 = []
  · rw [if_pos hnil, if_pos (Or.symm hnil)]
  · rw [if_neg hnil, if_neg fun hc => hnil (Or.symm hc)]
    by_cases hmag :
        Real.sqrt ((((tok2 ++ tok1).dedup.map fun w => tok1.count w * tok1.count w).sum : ℕ) : ℝ) = 0
        ∨ Real.sqrt ((((tok2 ++ tok1).dedup.map fun w => tok2.count w * tok2.count w).sum : ℕ) : ℝ) = 0
    · rw [if_pos hmag, if_pos (Or.symm hmag)]
    · rw [if_neg hmag, if_neg fun hc => hmag (Or.symm hc)]
      congr 1
      ring

theorem cosineTokens_nonneg (tok1 tok2 : List String) : 0 ≤ cosineTokens tok1 tok2 := by
  rw [cosineTokens_eq]
  split
  · exact le_refl 0
  split
  · exact le_refl 0
  · apply round2_nonneg
    positivity

theorem cosineTokens_le_100 (tok1 tok2 : List String) : cosineTokens tok1 tok2 ≤ 100 := by
  rw [cosineTokens_eq]
  split
  · norm_num
  split
  · norm_num
  rename_i hnil hmag
  push_neg at hmag
  apply round2_le_100
  have hm1 : 0 < Real.sqrt ((((tok1 ++ tok2).dedup.map fun w => tok1.count w * tok1.count w).sum : ℕ) : ℝ) :=
    lt_of_le_of_ne (Real.sqrt_nonneg _) (Ne.symm hmag.1)
  have hm2 : 0 < Real.sqrt ((((tok1 ++ tok2).dedup.map fun w => tok2.count w * tok2.count w).sum : ℕ) : ℝ) :=
    lt_of_le_of_ne (Real.sqrt_nonneg _) (Ne.symm hmag.2)
  have hcs := list_cauchy_schwarz ((tok1 ++ tok2).dedup)
    (fun w => tok1.count w) (fun w => tok2.count w)
  have hd : (((((tok1 ++ tok2).dedup.map fun w => tok1.count w * tok2.count w).sum : ℕ)) : ℝ)
      ≤ Real.sqrt ((((tok1 ++ tok2).dedup.map fun w => tok1.count w * tok1.count w).sum : ℕ) : ℝ) *
        Real.sqrt ((((tok1 ++ tok2).dedup.map fun w => tok2.count w * tok2.count w).sum : ℕ) : ℝ) := by
    rw [← Real.sqrt_mul (by positivity)]
    apply (Real.le_sqrt (by positivity) (by positivity)).mpr
    calc (((((tok1 ++ tok2).dedup.map fun w => tok1.count w * tok2.count w).sum : ℕ)) : ℝ) ^ 2
        = (((((tok1 ++ tok2).dedup.map fun w => tok1.count w * tok2.count w).sum ^ 2 : ℕ)) : ℝ) := by
          push_cast; ring
      _ ≤ (((((tok1 ++ tok2).dedup.map fun w => tok1.count w * tok1.count w).sum *
            ((tok1 ++ tok2).dedup.map fun w => tok2.count w * tok2.count w).sum : ℕ)) : ℝ) := by
          exact_mod_cast hcs
      _ = _ := by push_cast; ring
  have hquot : (((((tok1 ++ tok2).dedup.map fun w => tok1.count w * tok2.count w).sum : ℕ)) : ℝ) /
      (Real.sqrt ((((tok1 ++ tok2).dedup.map fun w => tok1.count w * tok1.count w).sum : ℕ) : ℝ) *
        Real.sqrt ((((tok1 ++ tok2).dedup.map fun w => tok2.count w * tok2.count w).sum : ℕ) : ℝ)) ≤ 1 :=
    (div_le_one (mul_pos hm1 hm2)).mpr hd
  nlinarith [hquot]

theorem cosineTokens_self (tok : List String) (h : tok ≠ []) :
    cosineTokens tok tok = 100 := by
  rw [cosineTokens_eq]
  rw [if_neg (by simp [h])]
  have hSpos : 0 < ((tok ++ tok).dedup.map fun w => tok.count w * tok.count w).sum := by
    obtain ⟨w, hw⟩ := List.exists_mem_of_ne_nil tok h
    have hwW : w ∈ (tok ++ tok).dedup := List.mem_dedup.mpr (List.mem_append_left _ hw)
    have hcount : 0 < tok.count w := List.count_pos_iff.mpr hw
    have hmem : tok.count w * tok.count w ∈
        (tok ++ tok).dedup.map fun w => tok.count w * tok.count w :=
      List.mem_map_of_mem _ hwW
    exact lt_of_lt_of_le (Nat.mul_pos hcount hcount) (le_list_sum_of_mem hmem)
  have hsqrt : Real.sqrt ((((tok ++ tok).dedup.map fun w => tok.count w * tok.count w).sum : ℕ) : ℝ) ≠ 0 := by
    rw [Ne, Real.sqrt_eq_zero']
    push_neg
    exact_mod_cast hSpos
  rw [if_neg (by push_neg; exact ⟨hsqrt, hsqrt⟩)]
  rw [Real.mul_self_sqrt (by positivity)]
  rw [div_self (by exact_mod_cast hSpos.ne')]
  norm_num [round2, round_eq]

theorem calculate_cosine_similarity_comm (t1 t2 : String) :
    calculate_cosine_similarity t1 t2 = calculate_cosine_similarity t2 t1 :=
  cosineTokens_comm _ _

theorem calculate_cosine_similarity_nonneg (t1 t2 : String) :
    0 ≤ calculate_cosine_similarity t1 t2 :=
  cosineTokens_nonneg _ _

theorem calculate_cosine_similarity_le_100 (t1 t2 : String) :
    calculate_cosine_similarity t1 t2 ≤ 100 :=
  cosineTokens_le_100 _ _

end Plag

namespace Plag

/-! ### File-pair and file-set comparison lemmas -/

theorem compare_submissions_comm (env : ExtractEnv) (p1 p2 : String) :
    compare_submissions env p1 p2 = compare_submissions env p2 p1 := by
  simp only [compare_submissions]
  by_cases h : (extract_text_from_file env p1).length < 50 ∨
      (extract_text_from_file env p2).length < 50
  · rw [if_pos h, if_pos (Or.symm h)]
  · rw [if_neg h, if_neg fun hc => h (Or.symm hc)]
    exact calculate_cosine_similarity_comm _ _

theorem compare_submissions_nonneg (env : ExtractEnv) (p1 p2 : String) :
    0 ≤ compare_submissions env p1 p2 := by
  simp only [compare_submissions]
  split
  · exact le_refl 0
  · exact calculate_cosine_similarity_nonneg _ _

theorem compare_submissions_le_100 (env : ExtractEnv) (p1 p2 : String) :
    compare_submissions env p1 p2 ≤ 100 := by
  simp only [compare_submissions]
  split
  · norm_num
  · exact calculate_cosine_similarity_le_100 _ _

theorem foldl_max_map {α : Type} (l : List α) (g : α → ℝ) (a : ℝ) :
    l.foldl (fun acc x => max acc (g x)) a = (l.map g).foldl max a := by
  induction l generalizing a with
  | nil => rfl
  | cons x xs ih => rw [List.foldl_cons, List.map_cons, List.foldl_cons, ih]

theorem compare_all_files_eq_foldl (env : ExtractEnv)
    (files1 files2 : List (String × String)) :
    compare_all_files_in_submissions env files1 files2
      = (pairScores env files1 files2).foldl max 0 := by
  simp only [compare_all_files_in_submissions, pairScores, ite_lt_eq_max]
  generalize (0 : ℝ) = a
  induction files1 generalizing a with
  | nil => rfl
  | cons f fs ih =>
    rw [List.foldl_cons, ih]
    rw [show ((f :: fs) ×ˢ files2 : List ((String × String) × String × String))
        = files2.map (fun b => (f, b)) ++ fs ×ˢ files2 from rfl]
    rw [List.map_append, List.foldl_append]
    congr 1
    rw [List.map_map]
    exact foldl_max_map files2 _ a

theorem pairScores_mem_bounds (env : ExtractEnv)
    (files1 files2 : List (String × String)) :
    ∀ s ∈ pairScores env files1 files2, 0 ≤ s ∧ s ≤ 100 := by
  intro s hs
  obtain ⟨p, _, rfl⟩ := List.mem_map.mp hs
  exact ⟨compare_submissions_nonneg env _ _, compare_submissions_le_100 env _ _⟩

theorem compare_all_files_nonneg (env : ExtractEnv)
    (files1 files2 : List (String × String)) :
    0 ≤ compare_all_files_in_submissions env files1 files2 := by
  rw [compare_all_files_eq_foldl]
  exact le_foldl_max _ 0

theorem compare_all_files_le_100 (env : ExtractEnv)
    (files1 files2 : List (String × String)) :
    compare_all_files_in_submissions env files1 files2 ≤ 100 := by
  rw [compare_all_files_eq_foldl]
  exact foldl_max_le _ 0 100 (by norm_num)
    fun x hx => (pairScores_mem_bounds env files1 files2 x hx).2

theorem compare_all_files_comm (env : ExtractEnv)
    (files1 files2 : List (String × String)) :
    compare_all_files_in_submissions env files1 files2
      = compare_all_files_in_submissions env files2 files1 := by
  have key : ∀ (A B : List (String × String)),
      compare_all_files_in_submissions env A B ≤ compare_all_files_in_submissions env B A := by
    intro A B
    rw [compare_all_files_eq_foldl, compare_all_files_eq_foldl]
    apply foldl_max_le _ 0 _ (le_foldl_max _ 0)
    intro s hs
    obtain ⟨p, hp, rfl⟩ := List.mem_map.mp hs
    have hmem : (p.2, p.1) ∈ B ×ˢ A := by
      rw [List.mem_product]
      obtain ⟨h1, h2⟩ := List.mem_product.mp hp
      exact ⟨h2, h1⟩
    have : compare_submissions env p.1.2 p.2.2 = compare_submissions env p.2.2 p.1.2 :=
      compare_submissions_comm env _ _
    rw [this]
    exact mem_le_foldl_max _ 0 _ (List.mem_map_of_mem (fun q => compare_submissions env q.1.2 q.2.2) hmem)
  exact le_antisymm (key files1 files2) (key files2 files1)

theorem compare_all_files_upper (env : ExtractEnv)
    (files1 files2 : List (String × String)) :
    ∀ s ∈ pairScores env files1 files2, s ≤ compare_all_files_in_submissions env files1 files2 := by
  intro s hs
  rw [compare_all_files_eq_foldl]
  exact mem_le_foldl_max _ 0 s hs

theorem compare_all_files_mem (env : ExtractEnv)
    (files1 files2 : List (String × String)) (h1 : files1 ≠ []) (h2 : files2 ≠ []) :
    compare_all_files_in_submissions env files1 files2 ∈ pairScores env files1 files2 := by
  have hne : pairScores env files1 files2 ≠ [] := by
    obtain ⟨a, ha⟩ := List.exists_mem_of_ne_nil files1 h1
    obtain ⟨b, hb⟩ := List.exists_mem_of_ne_nil files2 h2
    intro hnil
    have : compare_submissions env a.2 b.2 ∈ pairScores env files1 files2 :=
      List.mem_map_of_mem _ (List.mem_product.mpr ⟨ha, hb⟩)
    rw [hnil] at this
    cases this
  rw [compare_all_files_eq_foldl]
  rcases foldl_max_mem (pairScores env files1 files2) 0 with h | h
  · obtain ⟨s, hs⟩ := List.exists_mem_of_ne_nil _ hne
    have hle : s ≤ 0 := h ▸ mem_le_foldl_max _ 0 s hs
    have hge : 0 ≤ s := (pairScores_mem_bounds env files1 files2 s hs).1
    rw [h]
    have : s = 0 := le_antisymm hle hge
    rw [← this]
    exact hs
  · exact h

end Plag

namespace Plag

/-! ### Concrete evaluation lemmas -/

theorem fileExt_txt1 : fileExt ("f1.txt") = ".txt" := by decide

theorem extract_envTxt (content p : String) (hp : fileExt p = ".txt") :
    extract_text_from_file (envTxt content) p = content := by
  simp [extract_text_from_file, envTxt, hp]

theorem longText_length : longText.length = 50 := by decide

theorem tokenize_longText : tokenize (preprocess_text longText) = ["ab"] := by decide

theorem preprocess_longText_short : (preprocess_text longText).length < 50 := by decide

theorem cosine_longText : calculate_cosine_similarity longText longText = 100 := by
  unfold calculate_cosine_similarity
  rw [tokenize_longText]
  exact cosineTokens_self (["ab"]) (by decide)

theorem compare_envLong (p1 p2 : String) (h1 : fileExt p1 = ".txt")
    (h2 : fileExt p2 = ".txt") :
    compare_submissions envLong p1 p2 = 100 := by
  simp only [compare_submissions, envLong]
  rw [extract_envTxt longText p1 h1, extract_envTxt longText p2 h2]
  rw [if_neg (by rw [longText_length]; omega)]
  exact cosine_longText

end Plag

namespace Plag

/-! ### Corpus comparison lemmas -/

theorem compare_all_submissions_eq_filterMap (env : ExtractEnv) (subs : List SubmissionData) :
    compare_all_submissions env subs
      = (subPairs subs).filterMap fun p => pairOutcome env p.1 p.2 := by
  induction subs with
  | nil => rfl
  | cons a rest ih =>
    simp only [compare_all_submissions, subPairs, List.filterMap_append, ih,
      List.filterMap_map]
    rfl

theorem mem_subPairs (subs : List SubmissionData) (u v : SubmissionData) :
    (u, v) ∈ subPairs subs ↔ [u, v].Sublist subs := by
  induction subs with
  | nil =>
    simp only [subPairs, List.not_mem_nil, false_iff]
    intro h
    cases List.sublist_nil.mp h
  | cons a rest ih =>
    simp only [subPairs, List.mem_append, List.mem_map, ih]
    constructor
    · rintro (⟨t, htmem, heq⟩ | hsub)
      · injection heq with h1 h2
        subst h1
        subst h2
        exact List.Sublist.cons₂ _ (List.singleton_sublist.mpr htmem)
      · exact hsub.cons a
    · intro hsub
      rcases List.sublist_cons_iff.mp hsub with hsub' | ⟨rtail, heq, htail⟩
      · exact Or.inr hsub'
      · injection heq with h1 h2
        subst h1
        exact Or.inl ⟨v, List.singleton_sublist.mp (h2 ▸ htail), rfl⟩

end Plag

namespace Plag

theorem pairOutcome_eq_some (env : ExtractEnv) (s t : SubmissionData)
    (r : String × String × ℝ) :
    pairOutcome env s t = some r ↔
      s.student_id ≠ t.student_id ∧ s.files ≠ [] ∧ t.files ≠ [] ∧
      0 < compare_all_files_in_submissions env s.files t.files ∧
      r = (s.submission_id, t.submission_id,
        compare_all_files_in_submissions env s.files t.files) := by
  unfold pairOutcome
  by_cases h1 : s.student_id = t.student_id
  · simp [h1]
  by_cases h2 : s.files = [] ∨ t.files = []
  · rcases h2 with h2 | h2 <;> simp [h1, h2]
  push_neg at h2
  by_cases h3 : 0 < compare_all_files_in_submissions env s.files t.files
  · simp [h1, h2.1, h2.2, h3, eq_comm]
  · simp [h1, h2.1, h2.2, h3]

theorem mem_compare_all_submissions (env : ExtractEnv) (subs : List SubmissionData)
    (r : String × String × ℝ) :
    r ∈ compare_all_submissions env subs ↔
      ∃ s t, [s, t].Sublist subs ∧ pairOutcome env s t = some r := by
  rw [compare_all_submissions_eq_filterMap, List.mem_filterMap]
  constructor
  · rintro ⟨p, hp, hout⟩
    exact ⟨p.1, p.2, (mem_subPairs subs p.1 p.2).mp (by rwa [Prod.mk.eta]), hout⟩
  · rintro ⟨s, t, hsub, hout⟩
    exact ⟨(s, t), (mem_subPairs subs s t).mpr hsub, hout⟩

theorem subPairs_mem_both (subs : List SubmissionData) (q : SubmissionData × SubmissionData)
    (hq : q ∈ subPairs subs) : q.1 ∈ subs ∧ q.2 ∈ subs := by
  have hsub : [q.1, q.2].Sublist subs := (mem_subPairs subs q.1 q.2).mp (by rwa [Prod.mk.eta])
  exact ⟨hsub.subset (List.mem_cons_self _ _),
    hsub.subset (List.mem_cons_of_mem _ (List.mem_cons_self _ _))⟩

theorem nodup_subPairs (subs : List SubmissionData) (hnd : subs.Nodup) :
    (subPairs subs).Nodup := by
  induction subs with
  | nil => exact List.nodup_nil
  | cons a rest ih =>
    obtain ⟨hamem, hrest⟩ := List.nodup_cons.mp hnd
    rw [subPairs]
    apply List.Nodup.append
    · exact hrest.map fun x y hxy => by injection hxy
    · exact ih hrest
    · intro q hq1 hq2
      obtain ⟨t, htmem, heq⟩ := List.mem_map.mp hq1
      have := (subPairs_mem_both rest q hq2).1
      rw [← heq] at this
      exact hamem this

theorem countP_filterMap {α β : Type} (l : List α) (f : α → Option β) (p : β → Bool) :
    (l.filterMap f).countP p = l.countP fun x => ((f x).map p).getD false := by
  induction l with
  | nil => rfl
  | cons a as ih =>
    cases hfa : f a with
    | none =>
      simp only [List.filterMap_cons, hfa, List.countP_cons]
      simp [ih]
    | some b =>
      simp only [List.filterMap_cons, hfa, List.countP_cons]
      simp [ih]

theorem countP_eq_one_of {α : Type} (l : List α) (p : α → Bool) (x : α)
    (hnd : l.Nodup) (hx : x ∈ l) (hpx : p x = true)
    (hother : ∀ y ∈ l, y ≠ x → p y = false) : l.countP p = 1 := by
  induction l with
  | nil => cases hx
  | cons a as ih =>
    obtain ⟨hamem, has⟩ := List.nodup_cons.mp hnd
    rw [List.countP_cons]
    rcases List.mem_cons.mp hx with rfl | hmem
    · have h0 : as.countP p = 0 := List.countP_eq_zero.mpr fun y hy => by
        have hne : y ≠ x := fun heq => hamem (heq ▸ hy)
        simp [hother y (List.mem_cons_of_mem _ hy) hne]
      rw [h0, hpx]
      simp
    · have hane : a ≠ x := fun heq => hamem (heq ▸ hmem)
      have ha : p a = false := hother a (List.mem_cons_self _ _) hane
      rw [ih has hmem fun y hy hne => hother y (List.mem_cons_of_mem _ hy) hne, ha]
      simp

end Plag

namespace Plag

theorem compare_all_submissions_countP (env : ExtractEnv) (subs : List SubmissionData)
    (hnd : (subs.map SubmissionData.submission_id).Nodup)
    (s t : SubmissionData) (hsub : [s, t].Sublist subs)
    (h1 : s.student_id ≠ t.student_id) (h2 : s.files ≠ []) (h3 : t.files ≠ []) :
    (compare_all_submissions env subs).countP
        (fun r => r.1 == s.submission_id && r.2.1 == t.submission_id)
      = if 0 < compare_all_files_in_submissions env s.files t.files then 1 else 0 := by
  rw [compare_all_submissions_eq_filterMap, countP_filterMap]
  have hsubs_nd : subs.Nodup := hnd.of_map
  have hpairs_nd : (subPairs subs).Nodup := nodup_subPairs subs hsubs_nd
  have hmem : (s, t) ∈ subPairs subs := (mem_subPairs subs s t).mpr hsub
  have hsmem : s ∈ subs := hsub.subset (List.mem_cons_self _ _)
  have htmem : t ∈ subs := hsub.subset (List.mem_cons_of_mem _ (List.mem_cons_self _ _))
  have hinj := List.inj_on_of_nodup_map hnd
  by_cases hpos : 0 < compare_all_files_in_submissions env s.files t.files
  · rw [if_pos hpos]
    apply countP_eq_one_of _ _ (s, t) hpairs_nd hmem
    · have hout : pairOutcome env s t = some (s.submission_id, t.submission_id,
          compare_all_files_in_submissions env s.files t.files) :=
        (pairOutcome_eq_some env s t _).mpr ⟨h1, h2, h3, hpos, rfl⟩
      simp [hout]
    · intro q hq hneq
      cases hout : pairOutcome env q.1 q.2 with
      | none => simp [hout]
      | some r =>
        obtain ⟨hq1, hq2, hq3, hq4, hq5⟩ := (pairOutcome_eq_some env q.1 q.2 r).mp hout
        simp only [hout, Option.map_some', Option.getD_some]
        rw [hq5]
        by_cases hids : q.1.submission_id = s.submission_id ∧
            q.2.submission_id = t.submission_id
        · have hq1s : q.1 = s := hinj (subPairs_mem_both subs q hq).1 hsmem hids.1
          have hq2t : q.2 = t := hinj (subPairs_mem_both subs q hq).2 htmem hids.2
          exact absurd (Prod.ext hq1s hq2t) hneq
        · rcases not_and_or.mp hids with h | h <;> simp [beq_iff_eq, h]
  · rw [if_neg hpos]
    apply List.countP_eq_zero.mpr
    intro q hq
    cases hout : pairOutcome env q.1 q.2 with
    | none => simp [hout]
    | some r =>
      obtain ⟨hq1, hq2, hq3, hq4, hq5⟩ := (pairOutcome_eq_some env q.1 q.2 r).mp hout
      simp only [hout, Option.map_some', Option.getD_some]
      rw [hq5]
      simp only [Bool.and_eq_true, beq_iff_eq]
      rintro ⟨hid1, hid2⟩
      have hq1s : q.1 = s := hinj (subPairs_mem_both subs q hq).1 hsmem hid1
      have hq2t : q.2 = t := hinj (subPairs_mem_both subs q hq).2 htmem hid2
      rw [hq1s, hq2t] at hq4
      exact hpos hq4

end Plag

namespace Plag

/-! ### Run-level lemmas -/

theorem eligibleRow_id (env : ExtractEnv) (resolve : String → String)
    (s : SubmissionRow) (d : SubmissionData)
    (hd : eligibleRow env resolve s = some d) : d.submission_id = s.id := by
  unfold eligibleRow at hd
  by_cases h1 : s.files = []
  · rw [if_pos h1] at hd; cases hd
  · rw [if_neg h1] at hd
    by_cases h2 : ((s.files.filter fun f => env.fileExists (resolve f.2)).map
        fun f => (f.1, resolve f.2)) = []
    · rw [if_pos h2] at hd; cases hd
    · rw [if_neg h2] at hd
      injection hd with hd
      rw [← hd]

theorem filterMap_map_sublist {α β γ : Type} (l : List α) (f : α → Option β)
    (g : β → γ) (h : α → γ) (hfg : ∀ a b, f a = some b → g b = h a) :
    ((l.filterMap f).map g).Sublist (l.map h) := by
  induction l with
  | nil => exact List.Sublist.refl _
  | cons a rest ih =>
    rw [List.filterMap_cons]
    cases hfa : f a with
    | none => exact ih.cons (h a)
    | some b =>
      rw [List.map_cons, List.map_cons, hfg a b hfa]
      exact ih.cons₂ (h a)

theorem eligibleData_ids_sublist (env : ExtractEnv) (resolve : String → String)
    (subs : List SubmissionRow) :
    ((eligibleData env resolve subs).map SubmissionData.submission_id).Sublist
      (subs.map SubmissionRow.id) := by
  unfold eligibleData
  exact filterMap_map_sublist subs _ _ _ fun a b hb => eligibleRow_id env resolve a b hb

theorem filter_not_filter {α : Type} (l : List α) (p : α → Bool) :
    (l.filter fun a => !(p a)).filter p = [] := by
  induction l with
  | nil => rfl
  | cons a rest ih =>
    cases hpa : p a
    · simp only [List.filter_cons, hpa]
      simp [ih, hpa]
    · simp only [List.filter_cons, hpa]
      simp [ih, hpa]

theorem insertedRows_assignment (env : ExtractEnv) (uuid : ℕ → String) (now : String)
    (aid : String) (data : List SubmissionData) :
    ∀ r ∈ insertedRows env uuid now aid data, r.assignment_id = aid := by
  intro r hr
  obtain ⟨kr, _, rfl⟩ := List.mem_map.mp hr
  rfl

theorem insertedRows_content (env : ExtractEnv) (uuid : ℕ → String) (now : String)
    (aid : String) (data : List SubmissionData) :
    (insertedRows env uuid now aid data).map rowContent
      = (compare_all_submissions env data).map canonicalPair := by
  unfold insertedRows
  rw [List.map_map]
  have h1 : (compare_all_submissions env data).enum.map
        (rowContent ∘ fun kr =>
          ({ id := uuid kr.1, assignment_id := aid,
             submission1_id := (canonicalPair kr.2).1,
             submission2_id := (canonicalPair kr.2).2.1,
             similarity_score := (canonicalPair kr.2).2.2,
             checked_at := now } : MatchRow))
      = (compare_all_submissions env data).enum.map fun kr => canonicalPair kr.2 :=
    List.map_congr_left fun kr _ => rfl
  rw [h1]
  have h2 : ((compare_all_submissions env data).enum.map fun kr => canonicalPair kr.2)
      = ((compare_all_submissions env data).enum.map Prod.snd).map canonicalPair := by
    rw [List.map_map]
    rfl
  rw [h2, List.enum_map_snd]

theorem run_plagiarism_check_proceed (env : ExtractEnv) (resolve : String → String)
    (uuid : ℕ → String) (now : String) (aid : String) (db : Db)
    (hsubs : ¬ (db.submissions.filter fun s => s.assignment_id == aid).length < 2)
    (hdata : ¬ (eligibleData env resolve
        (db.submissions.filter fun s => s.assignment_id == aid)).length < 2) :
    (run_plagiarism_check env resolve uuid now aid db).plagiarism_matches
      = (db.plagiarism_matches.filter fun m => !(m.assignment_id == aid))
        ++ insertedRows env uuid now aid
            (eligibleData env resolve
              (db.submissions.filter fun s => s.assignment_id == aid)) := by
  simp only [run_plagiarism_check]
  rw [if_neg hsubs, if_neg hdata]

theorem run_plagiarism_check_skip (env : ExtractEnv) (resolve : String → String)
    (uuid : ℕ → String) (now : String) (aid : String) (db : Db)
    (h : (db.submissions.filter fun s => s.assignment_id == aid).length < 2
      ∨ (eligibleData env resolve
          (db.submissions.filter fun s => s.assignment_id == aid)).length < 2) :
    run_plagiarism_check env resolve uuid now aid db = db := by
  simp only [run_plagiarism_check]
  by_cases hs : (db.submissions.filter fun s => s.assignment_id == aid).length < 2
  · rw [if_pos hs]
  · rcases h with h | h
    · exact absurd h hs
    · rw [if_neg hs, if_pos h]

end Plag

namespace Plag

/-! ### Report lemmas -/

theorem resolveMatch_id (db : Db) (m : MatchRow) (r : MatchResponse)
    (h : resolveMatch db m = some r) : r.id = m.id := by
  unfold resolveMatch at h
  repeat' split at h
  all_goals cases h
  all_goals rfl

theorem filterMap_all_some_map {α β γ : Type} (l : List α) (f : α → Option β)
    (g : β → γ) (h : α → γ)
    (hres : ∀ a ∈ l, ∃ b, f a = some b)
    (hid : ∀ a b, f a = some b → g b = h a) :
    (l.filterMap f).map g = l.map h := by
  induction l with
  | nil => rfl
  | cons a rest ih =>
    obtain ⟨b, hb⟩ := hres a (List.mem_cons_self _ _)
    rw [List.filterMap_cons, hb, List.map_cons, List.map_cons, hid a b hb,
      ih fun x hx => hres x (List.mem_cons_of_mem _ hx)]

theorem length_filterMap_lt {α β : Type} (l : List α) (f : α → Option β) (x : α)
    (hx : x ∈ l) (hnone : f x = none) : (l.filterMap f).length < l.length := by
  induction l with
  | nil => cases hx
  | cons a rest ih =>
    rcases List.mem_cons.mp hx with rfl | hmem
    · rw [List.filterMap_cons, hnone, List.length_cons]
      exact Nat.lt_succ_of_le (List.length_filterMap_le f rest)
    · rw [List.filterMap_cons, List.length_cons]
      cases hfa : f a with
      | none => exact Nat.lt_succ_of_lt (ih hmem)
      | some b =>
        rw [List.length_cons]
        exact Nat.succ_lt_succ (ih hmem)

theorem report_counts (db : Db) (aid : String) (θ : ℝ) :
    (get_plagiarism_report db aid θ).total_comparisons
        = (db.plagiarism_matches.filter fun m => m.assignment_id == aid).length
    ∧ (get_plagiarism_report db aid θ).high_similarity_count
        = ((db.plagiarism_matches.filter fun m => m.assignment_id == aid).filter
            fun m => decide (70 < m.similarity_score)).length
    ∧ (get_plagiarism_report db aid θ).medium_similarity_count
        = ((db.plagiarism_matches.filter fun m => m.assignment_id == aid).filter
            fun m => decide (50 ≤ m.similarity_score ∧ m.similarity_score ≤ 70)).length := by
  have hperm := List.mergeSort_perm
    (db.plagiarism_matches.filter fun m => m.assignment_id == aid)
    fun a b => decide (b.similarity_score ≤ a.similarity_score)
  refine ⟨hperm.length_eq, ?_, ?_⟩
  · exact (hperm.filter _).length_eq
  · exact (hperm.filter _).length_eq

theorem report_entries_ids (db : Db) (aid : String) (θ : ℝ)
    (hres : ∀ m ∈ db.plagiarism_matches.filter fun x => x.assignment_id == aid,
      ∃ r, resolveMatch db m = some r) :
    ((get_plagiarism_report db aid θ).matchEntries.map MatchResponse.id).Perm
      (((db.plagiarism_matches.filter fun m => m.assignment_id == aid).filter
          fun m => decide (θ ≤ m.similarity_score)).map MatchRow.id) := by
  have hperm := List.mergeSort_perm
    (db.plagiarism_matches.filter fun m => m.assignment_id == aid)
    fun a b => decide (b.similarity_score ≤ a.similarity_score)
  have hmapeq : (get_plagiarism_report db aid θ).matchEntries.map MatchResponse.id
      = (((db.plagiarism_matches.filter fun m => m.assignment_id == aid).mergeSort
          fun a b => decide (b.similarity_score ≤ a.similarity_score)).filter
            (fun m => decide (θ ≤ m.similarity_score))).map MatchRow.id := by
    apply filterMap_all_some_map
    · intro m hm
      exact hres m (hperm.subset (List.mem_of_mem_filter hm))
    · intro m r hr
      exact resolveMatch_id db m r hr
  rw [hmapeq]
  exact ((hperm.filter _).map _)

end Plag

namespace Plag

/-! ### Claim theorems -/

theorem fileExt_txt2 : fileExt ("f2.txt") = ".txt" := by decide

/-- C1, counterexample: the guard in `compare_submissions` tests the raw
extracted length, not the normalized length.  `longText` is 50 raw characters
whose normalized form `"ab"` has length 2 < 50, yet two files with this
content score 100, not 0. -/
theorem claim_C1_counterexample :
    (preprocess_text (extract_text_from_file envLong ("f1.txt"))).length < 50
    ∧ compare_submissions envLong ("f1.txt") ("f2.txt") ≠ 0 := by
  constructor
  · rw [show extract_text_from_file envLong ("f1.txt") = longText from
      extract_envTxt longText ("f1.txt") fileExt_txt1]
    exact preprocess_longText_short
  · rw [compare_envLong ("f1.txt") ("f2.txt") fileExt_txt1 fileExt_txt2]
    norm_num

/-- C1, amended: `compare_submissions` returns 0 whenever the RAW extracted
text of either file is shorter than 50 characters (the source checks
`len(text)` before preprocessing); and when every file of every submission
extracts to raw text under 50 characters, a run produces no result at all. -/
theorem claim_C1_amended :
    (∀ (env : ExtractEnv) (p1 p2 : String),
      ((extract_text_from_file env p1).length < 50 ∨
        (extract_text_from_file env p2).length < 50) →
      compare_submissions env p1 p2 = 0)
    ∧ ∀ (env : ExtractEnv) (data : List SubmissionData),
        (∀ sub ∈ data, ∀ f ∈ sub.files,
          (extract_text_from_file env f.2).length < 50) →
        compare_all_submissions env data = [] := by
  have hzero : ∀ (env : ExtractEnv) (p1 p2 : String),
      ((extract_text_from_file env p1).length < 50 ∨
        (extract_text_from_file env p2).length < 50) →
      compare_submissions env p1 p2 = 0 := by
    intro env p1 p2 h
    simp only [compare_submissions]
    rw [if_pos h]
  refine ⟨hzero, ?_⟩
  intro env data hshort
  rw [compare_all_submissions_eq_filterMap]
  apply List.filterMap_eq_nil_iff.mpr
  intro q hq
  obtain ⟨hq1, hq2⟩ := subPairs_mem_both data q hq
  unfold pairOutcome
  by_cases h1 : q.1.student_id = q.2.student_id
  · rw [if_pos h1]
  rw [if_neg h1]
  by_cases h2 : q.1.files = [] ∨ q.2.files = []
  · rw [if_pos h2]
  rw [if_neg h2]
  have hcaf : compare_all_files_in_submissions env q.1.files q.2.files = 0 := by
    apply le_antisymm
    · rw [compare_all_files_eq_foldl]
      apply foldl_max_le _ 0 0 (le_refl 0)
      intro s hs
      obtain ⟨p, hp, rfl⟩ := List.mem_map.mp hs
      obtain ⟨hpa, hpb⟩ := List.mem_product.mp hp
      exact le_of_eq (hzero env p.1.2 p.2.2
        (Or.inl (hshort q.1 hq1 p.1 hpa)))
    · exact compare_all_files_nonneg env _ _
  rw [hcaf]
  norm_num

/-- C1, amended, witness: with every file reading as the 5-character text
`"short"`, the guard applies and the score is 0. -/
theorem claim_C1_amended_witness :
    (extract_text_from_file envShort ("a.txt")).length < 50
    ∧ compare_submissions envShort ("a.txt") ("b.txt") = 0 :=
  ⟨by decide, claim_C1_amended.1 envShort ("a.txt") ("b.txt") (Or.inl (by decide))⟩

/-- C5: the cosine score is symmetric in its two texts, and the file-set
score is symmetric in its two file lists. -/
theorem claim_C5 :
    (∀ t1 t2 : String,
      calculate_cosine_similarity t1 t2 = calculate_cosine_similarity t2 t1)
    ∧ ∀ (env : ExtractEnv) (a b : List (String × String)),
        compare_all_files_in_submissions env a b
          = compare_all_files_in_submissions env b a :=
  ⟨calculate_cosine_similarity_comm, compare_all_files_comm⟩

/-- C6: for nonempty file lists the file-set score is the maximum of the
pairwise scores over the cartesian product: it is one of those scores and an
upper bound of all of them. -/
theorem claim_C6 (env : ExtractEnv) (a b : List (String × String))
    (ha : a ≠ []) (hb : b ≠ []) :
    compare_all_files_in_submissions env a b ∈ pairScores env a b
    ∧ ∀ s ∈ pairScores env a b, s ≤ compare_all_files_in_submissions env a b :=
  ⟨compare_all_files_mem env a b ha hb, compare_all_files_upper env a b⟩

/-- C6, witness at two concrete singleton file lists. -/
theorem claim_C6_witness :
    (([(("fid1" : String), ("f1.txt" : String))] : List (String × String)) ≠ []
      ∧ ([(("fid2" : String), ("f2.txt" : String))] : List (String × String)) ≠ [])
    ∧ (compare_all_files_in_submissions envLong [("fid1", "f1.txt")] [("fid2", "f2.txt")]
          ∈ pairScores envLong [("fid1", "f1.txt")] [("fid2", "f2.txt")]
        ∧ ∀ s ∈ pairScores envLong [("fid1", "f1.txt")] [("fid2", "f2.txt")],
            s ≤ compare_all_files_in_submissions envLong
              [("fid1", "f1.txt")] [("fid2", "f2.txt")]) :=
  ⟨⟨by decide, by decide⟩,
    claim_C6 envLong [("fid1", "f1.txt")] [("fid2", "f2.txt")] (by decide) (by decide)⟩

end Plag

namespace Plag

theorem filter_idem {α : Type} (l : List α) (p : α → Bool) :
    (l.filter p).filter p = l.filter p := by
  rw [List.filter_filter]
  have h : (fun a => p a && p a) = p := funext fun a => Bool.and_self _
  rw [h]

/-- C7: under distinct submission ids, the corpus comparison produces no
entry for a same-student pair, no entry for a pair with an empty file list,
and each remaining ordered pair `i < j` contributes exactly one entry when
its score is positive and none otherwise. -/
theorem claim_C7 (env : ExtractEnv) (subs : List SubmissionData)
    (hnd : (subs.map SubmissionData.submission_id).Nodup) :
    (∀ s ∈ subs, ∀ t ∈ subs, s.student_id = t.student_id →
      ∀ sc : ℝ, (s.submission_id, t.submission_id, sc) ∉ compare_all_submissions env subs)
    ∧ (∀ s ∈ subs, ∀ t ∈ subs, (s.files = [] ∨ t.files = []) →
      ∀ sc : ℝ, (s.submission_id, t.submission_id, sc) ∉ compare_all_submissions env subs)
    ∧ ∀ s t, [s, t].Sublist subs → s.student_id ≠ t.student_id →
        s.files ≠ [] → t.files ≠ [] →
        (compare_all_submissions env subs).countP
            (fun r => r.1 == s.submission_id && r.2.1 == t.submission_id)
          = if 0 < compare_all_files_in_submissions env s.files t.files then 1 else 0 := by
  have hinj := List.inj_on_of_nodup_map hnd
  have key : ∀ s ∈ subs, ∀ t ∈ subs, ∀ sc : ℝ,
      (s.submission_id, t.submission_id, sc) ∈ compare_all_submissions env subs →
      s.student_id ≠ t.student_id ∧ s.files ≠ [] ∧ t.files ≠ [] := by
    intro s hs t ht sc hmem
    obtain ⟨a, b, hsub', hout⟩ := (mem_compare_all_submissions env subs _).mp hmem
    obtain ⟨h1, h2, h3, _, h5⟩ := (pairOutcome_eq_some env a b _).mp hout
    have h51 : s.submission_id = a.submission_id := congrArg Prod.fst h5
    have h52 : t.submission_id = b.submission_id := congrArg (fun x => x.2.1) h5
    have ham : a ∈ subs := hsub'.subset (List.mem_cons_self _ _)
    have hbm : b ∈ subs := hsub'.subset (List.mem_cons_of_mem _ (List.mem_cons_self _ _))
    have has : a = s := hinj ham hs h51.symm
    have hbt : b = t := hinj hbm ht h52.symm
    subst has
    subst hbt
    exact ⟨h1, h2, h3⟩
  refine ⟨?_, ?_, ?_⟩
  · intro s hs t ht heq sc hmem
    exact (key s hs t ht sc hmem).1 heq
  · intro s hs t ht hempty sc hmem
    rcases hempty with h | h
    · exact (key s hs t ht sc hmem).2.1 h
    · exact (key s hs t ht sc hmem).2.2 h
  · intro s t hsub h1 h2 h3
    exact compare_all_submissions_countP env subs hnd s t hsub h1 h2 h3

/-- C7, witness at two concrete single-file submissions of distinct
students. -/
theorem claim_C7_witness :
    (([⟨"s1", "stu1", [("fid1", "f1.txt")]⟩,
        ⟨"s2", "stu2", [("fid2", "f2.txt")]⟩] : List SubmissionData).map
        SubmissionData.submission_id).Nodup
    ∧ ((∀ s ∈ ([⟨"s1", "stu1", [("fid1", "f1.txt")]⟩,
          ⟨"s2", "stu2", [("fid2", "f2.txt")]⟩] : List SubmissionData),
        ∀ t ∈ ([⟨"s1", "stu1", [("fid1", "f1.txt")]⟩,
          ⟨"s2", "stu2", [("fid2", "f2.txt")]⟩] : List SubmissionData),
        s.student_id = t.student_id →
        ∀ sc : ℝ, (s.submission_id, t.submission_id, sc) ∉
          compare_all_submissions envLong
            [⟨"s1", "stu1", [("fid1", "f1.txt")]⟩, ⟨"s2", "stu2", [("fid2", "f2.txt")]⟩])
      ∧ (∀ s ∈ ([⟨"s1", "stu1", [("fid1", "f1.txt")]⟩,
          ⟨"s2", "stu2", [("fid2", "f2.txt")]⟩] : List SubmissionData),
        ∀ t ∈ ([⟨"s1", "stu1", [("fid1", "f1.txt")]⟩,
          ⟨"s2", "stu2", [("fid2", "f2.txt")]⟩] : List SubmissionData),
        (s.files = [] ∨ t.files = []) →
        ∀ sc : ℝ, (s.submission_id, t.submission_id, sc) ∉
          compare_all_submissions envLong
            [⟨"s1", "stu1", [("fid1", "f1.txt")]⟩, ⟨"s2", "stu2", [("fid2", "f2.txt")]⟩])
      ∧ ∀ s t, [s, t].Sublist
            ([⟨"s1", "stu1", [("fid1", "f1.txt")]⟩,
              ⟨"s2", "stu2", [("fid2", "f2.txt")]⟩] : List SubmissionData) →
          s.student_id ≠ t.student_id → s.files ≠ [] → t.files ≠ [] →
          (compare_all_submissions envLong
              [⟨"s1", "stu1", [("fid1", "f1.txt")]⟩,
                ⟨"s2", "stu2", [("fid2", "f2.txt")]⟩]).countP
              (fun r => r.1 == s.submission_id && r.2.1 == t.submission_id)
            = if 0 < compare_all_files_in_submissions envLong s.files t.files
              then 1 else 0) :=
  ⟨by decide,
    claim_C7 envLong
      [⟨"s1", "stu1", [("fid1", "f1.txt")]⟩, ⟨"s2", "stu2", [("fid2", "f2.txt")]⟩]
      (by decide)⟩

end Plag

namespace Plag

/-- C3: every row a run inserts has `submission1_id < submission2_id` in the
code-point lexicographic order Python uses on uuid strings (so no self-pair,
and each unordered pair appears at most once), and a score strictly above 0
and at most 100. -/
theorem claim_C3 (env : ExtractEnv) (resolve : String → String) (uuid : ℕ → String)
    (now : String) (aid : String) (subs : List SubmissionRow)
    (hnd : (subs.map SubmissionRow.id).Nodup) :
    ∀ r ∈ insertedRows env uuid now aid (eligibleData env resolve subs),
      r.submission1_id.data < r.submission2_id.data
      ∧ 0 < r.similarity_score ∧ r.similarity_score ≤ 100 := by
  intro r hr
  obtain ⟨kr, hkr, rfl⟩ := List.mem_map.mp hr
  have hkr2 : kr.2 ∈ compare_all_submissions env (eligibleData env resolve subs) := by
    have henum := List.enum_map_snd
      (compare_all_submissions env (eligibleData env resolve subs))
    exact henum ▸ List.mem_map_of_mem Prod.snd hkr
  obtain ⟨s, t, hsub, hout⟩ := (mem_compare_all_submissions env _ _).mp hkr2
  obtain ⟨_, _, _, h4, h5⟩ := (pairOutcome_eq_some env s t _).mp hout
  have hnd' : ((eligibleData env resolve subs).map SubmissionData.submission_id).Nodup :=
    List.Nodup.sublist (eligibleData_ids_sublist env resolve subs) hnd
  have hpairnd : ([s.submission_id, t.submission_id] : List String).Nodup :=
    List.Nodup.sublist (hsub.map SubmissionData.submission_id) hnd'
  have hids : s.submission_id ≠ t.submission_id := by
    have := (List.nodup_cons.mp hpairnd).1
    intro heq
    exact this (heq ▸ List.mem_cons_self _ _)
  have hbound : compare_all_files_in_submissions env s.files t.files ≤ 100 :=
    compare_all_files_le_100 env s.files t.files
  rw [h5]
  simp only [canonicalPair]
  by_cases hlt : t.submission_id.data < s.submission_id.data
  · rw [if_pos hlt]
    exact ⟨hlt, h4, hbound⟩
  · rw [if_neg hlt]
    refine ⟨?_, h4, hbound⟩
    rcases lt_trichotomy s.submission_id.data t.submission_id.data with h | h | h
    · exact h
    · exact absurd (String.ext h) hids
    · exact absurd h hlt

/-- C3, witness: two eligible submissions with identical high-similarity
content; the claim's hypotheses hold at this concrete database. -/
theorem claim_C3_witness :
    (([subRow1, subRow2].map SubmissionRow.id).Nodup)
    ∧ ∀ r ∈ insertedRows envLong (fun _ => "u0") ("t0") ("a1")
        (eligibleData envLong id [subRow1, subRow2]),
      r.submission1_id.data < r.submission2_id.data
      ∧ 0 < r.similarity_score ∧ r.similarity_score ≤ 100 :=
  ⟨by decide,
    claim_C3 envLong id (fun _ => "u0") ("t0") ("a1") [subRow1, subRow2] (by decide)⟩

end Plag

namespace Plag

/-- C2, counterexample: a run whose assignment has no submissions completes
without touching the store, so the stale match for `a1` survives even though
the output computed from the run's input submissions is empty — the stored
set is NOT always exactly the run's output when fewer than two submissions
are eligible. -/
theorem claim_C2_counterexample :
    run_plagiarism_check envMissing id (fun _ => "u0") ("t0") ("a1") dbStale = dbStale
    ∧ dbStale.plagiarism_matches.filter (fun m => m.assignment_id == "a1") ≠ []
    ∧ compare_all_submissions envMissing
        (eligibleData envMissing id
          (dbStale.submissions.filter fun s => s.assignment_id == "a1")) = [] := by
  refine ⟨?_, ?_, rfl⟩
  · apply run_plagiarism_check_skip
    left
    simp [dbStale]
  · have h : dbStale.plagiarism_matches.filter (fun m => m.assignment_id == "a1")
        = [staleRow] := by
      simp [dbStale, staleRow]
    rw [h]
    exact List.cons_ne_nil _ _

/-- C2, amended: when at least two submissions exist and at least two remain
eligible, the post-run store for the assignment is exactly the canonicalized
output of the comparison over the run's eligible input (all earlier rows for
the assignment deleted), and rows of other assignments are untouched; but a
run that finds fewer than two submissions or fewer than two eligible
submissions returns early and leaves the store completely unchanged. -/
theorem claim_C2_amended (env : ExtractEnv) (resolve : String → String)
    (uuid : ℕ → String) (now : String) (aid : String) (db : Db) :
    (¬ (db.submissions.filter fun s => s.assignment_id == aid).length < 2 →
      ¬ (eligibleData env resolve
          (db.submissions.filter fun s => s.assignment_id == aid)).length < 2 →
      (((run_plagiarism_check env resolve uuid now aid db).plagiarism_matches.filter
            fun m => m.assignment_id == aid).map rowContent
          = (compare_all_submissions env
              (eligibleData env resolve
                (db.submissions.filter fun s => s.assignment_id == aid))).map canonicalPair
        ∧ (run_plagiarism_check env resolve uuid now aid db).plagiarism_matches.filter
            (fun m => !(m.assignment_id == aid))
          = db.plagiarism_matches.filter fun m => !(m.assignment_id == aid)))
    ∧ (((db.submissions.filter fun s => s.assignment_id == aid).length < 2
        ∨ (eligibleData env resolve
            (db.submissions.filter fun s => s.assignment_id == aid)).length < 2) →
      run_plagiarism_check env resolve uuid now aid db = db) := by
  constructor
  · intro hsubs hdata
    rw [run_plagiarism_check_proceed env resolve uuid now aid db hsubs hdata]
    constructor
    · rw [List.filter_append]
      rw [filter_not_filter db.plagiarism_matches fun m => m.assignment_id == aid]
      rw [List.filter_eq_self.mpr fun r hr =>
        beq_iff_eq.mpr (insertedRows_assignment env uuid now aid _ r hr)]
      rw [List.nil_append]
      exact insertedRows_content env uuid now aid _
    · rw [List.filter_append]
      rw [filter_idem db.plagiarism_matches fun m => !(m.assignment_id == aid)]
      have hins : (insertedRows env uuid now aid
          (eligibleData env resolve
            (db.submissions.filter fun s => s.assignment_id == aid))).filter
            (fun m => !(m.assignment_id == aid)) = [] := by
        apply List.filter_eq_nil_iff.mpr
        intro r hr
        have := insertedRows_assignment env uuid now aid _ r hr
        simp [this]
      rw [hins, List.append_nil]
  · exact run_plagiarism_check_skip env resolve uuid now aid db

/-- C2, amended, witness: the replace branch fires on a database with two
eligible submissions. -/
theorem claim_C2_amended_witness :
    (¬ (dbTwo.submissions.filter fun s => s.assignment_id == "a1").length < 2)
    ∧ (¬ (eligibleData envLong id
          (dbTwo.submissions.filter fun s => s.assignment_id == "a1")).length < 2)
    ∧ ((((run_plagiarism_check envLong id (fun _ => "u0") ("t0") ("a1")
            dbTwo).plagiarism_matches.filter
            fun m => m.assignment_id == "a1").map rowContent
          = (compare_all_submissions envLong
              (eligibleData envLong id
                (dbTwo.submissions.filter fun s => s.assignment_id == "a1"))).map
              canonicalPair)
        ∧ (run_plagiarism_check envLong id (fun _ => "u0") ("t0") ("a1")
            dbTwo).plagiarism_matches.filter
            (fun m => !(m.assignment_id == "a1"))
          = dbTwo.plagiarism_matches.filter fun m => !(m.assignment_id == "a1")) :=
  ⟨by decide, by decide,
    (claim_C2_amended envLong id (fun _ => "u0") ("t0") ("a1") dbTwo).1
      (by decide) (by decide)⟩

end Plag

namespace Plag

/-- C4, counterexample: with one stored 90-score match whose submissions were
deleted, the report's `matches` list is empty even though the stored set
holds one match at or above the threshold — the list is NOT exactly the
threshold-filtered stored set. -/
theorem claim_C4_counterexample :
    (get_plagiarism_report dbDangling ("a1") 70).matchEntries = []
    ∧ ((dbDangling.plagiarism_matches.filter fun m => m.assignment_id == "a1").filter
        fun m => decide ((70 : ℝ) ≤ m.similarity_score)).length = 1 := by
  have hfa : dbDangling.plagiarism_matches.filter (fun m => m.assignment_id == "a1")
      = [m90] := by
    simp [dbDangling, m90]
  have h70 : (decide ((70 : ℝ) ≤ m90.similarity_score)) = true :=
    decide_eq_true (by norm_num [m90])
  have hfilter : ([m90].filter fun m => decide ((70 : ℝ) ≤ m.similarity_score)) = [m90] := by
    simp only [List.filter_cons, h70, List.filter_nil]
    rfl
  constructor
  · have hres : resolveMatch dbDangling m90 = none := rfl
    simp only [get_plagiarism_report, hfa, List.mergeSort_singleton, hfilter]
    simp [hres]
  · rw [hfa, hfilter]
    rfl

/-- C4, amended: provided every stored match of the assignment still
resolves (its submissions and students exist), the report's `matches` list is
exactly (as a multiset of match ids) the stored matches with score at or
above the threshold, `total_comparisons` counts all stored matches for the
assignment regardless of the threshold, and the two severity counts are
computed over the unfiltered stored set with the fixed cutoffs 70 and
50..70.  When a referenced record is missing, the corresponding match is
dropped from the list (see C10). -/
theorem claim_C4_amended (db : Db) (aid : String) (θ : ℝ)
    (hres : ∀ m ∈ db.plagiarism_matches.filter fun x => x.assignment_id == aid,
      ∃ r, resolveMatch db m = some r) :
    (get_plagiarism_report db aid θ).total_comparisons
        = (db.plagiarism_matches.filter fun m => m.assignment_id == aid).length
    ∧ ((get_plagiarism_report db aid θ).matchEntries.map MatchResponse.id).Perm
        (((db.plagiarism_matches.filter fun m => m.assignment_id == aid).filter
            fun m => decide (θ ≤ m.similarity_score)).map MatchRow.id)
    ∧ (get_plagiarism_report db aid θ).high_similarity_count
        = ((db.plagiarism_matches.filter fun m => m.assignment_id == aid).filter
            fun m => decide (70 < m.similarity_score)).length
    ∧ (get_plagiarism_report db aid θ).medium_similarity_count
        = ((db.plagiarism_matches.filter fun m => m.assignment_id == aid).filter
            fun m => decide (50 ≤ m.similarity_score ∧ m.similarity_score ≤ 70)).length :=
  ⟨(report_counts db aid θ).1, report_entries_ids db aid θ hres,
    (report_counts db aid θ).2.1, (report_counts db aid θ).2.2⟩

/-- C4, amended, witness: a database in which the single stored match fully
resolves. -/
theorem claim_C4_amended_witness :
    (∀ m ∈ dbResolved.plagiarism_matches.filter fun x => x.assignment_id == "a1",
      ∃ r, resolveMatch dbResolved m = some r)
    ∧ ((get_plagiarism_report dbResolved ("a1") 70).total_comparisons
        = (dbResolved.plagiarism_matches.filter fun m => m.assignment_id == "a1").length
      ∧ ((get_plagiarism_report dbResolved ("a1") 70).matchEntries.map
          MatchResponse.id).Perm
          (((dbResolved.plagiarism_matches.filter fun m => m.assignment_id == "a1").filter
              fun m => decide ((70 : ℝ) ≤ m.similarity_score)).map MatchRow.id)
      ∧ (get_plagiarism_report dbResolved ("a1") 70).high_similarity_count
          = ((dbResolved.plagiarism_matches.filter fun m => m.assignment_id == "a1").filter
              fun m => decide ((70 : ℝ) < m.similarity_score)).length
      ∧ (get_plagiarism_report dbResolved ("a1") 70).medium_similarity_count
          = ((dbResolved.plagiarism_matches.filter fun m => m.assignment_id == "a1").filter
              fun m => decide ((50 : ℝ) ≤ m.similarity_score ∧
                m.similarity_score ≤ 70)).length) := by
  have hsingle : dbResolved.plagiarism_matches.filter (fun x => x.assignment_id == "a1")
      = [m90] := by
    simp [dbResolved, m90]
  have hres : ∀ m ∈ dbResolved.plagiarism_matches.filter
      fun x => x.assignment_id == "a1", ∃ r, resolveMatch dbResolved m = some r := by
    intro m hm
    rw [hsingle] at hm
    rcases List.mem_singleton.mp hm with rfl
    exact ⟨_, rfl⟩
  exact ⟨hres, claim_C4_amended dbResolved ("a1") 70 hres⟩

end Plag

namespace Plag

/-- C10: a stored match whose submission or student records no longer exist
(its resolution yields `none`) is silently dropped from the report's entry
list, while it still contributes to `total_comparisons` and to both severity
counts (all computed over the full stored set), so when it meets the
threshold the entry list is strictly shorter than `total_comparisons`. -/
theorem claim_C10 (db : Db) (aid : String) (θ : ℝ) (m : MatchRow)
    (hnd : ((db.plagiarism_matches.filter fun x => x.assignment_id == aid).map
      MatchRow.id).Nodup)
    (hm : m ∈ db.plagiarism_matches) (haid : m.assignment_id = aid)
    (hnone : resolveMatch db m = none) (hθ : θ ≤ m.similarity_score) :
    (∀ r ∈ (get_plagiarism_report db aid θ).matchEntries, r.id ≠ m.id)
    ∧ (get_plagiarism_report db aid θ).total_comparisons
        = (db.plagiarism_matches.filter fun x => x.assignment_id == aid).length
    ∧ (get_plagiarism_report db aid θ).high_similarity_count
        = ((db.plagiarism_matches.filter fun x => x.assignment_id == aid).filter
            fun x => decide (70 < x.similarity_score)).length
    ∧ (get_plagiarism_report db aid θ).medium_similarity_count
        = ((db.plagiarism_matches.filter fun x => x.assignment_id == aid).filter
            fun x => decide (50 ≤ x.similarity_score ∧ x.similarity_score ≤ 70)).length
    ∧ (get_plagiarism_report db aid θ).matchEntries.length
        < (get_plagiarism_report db aid θ).total_comparisons := by
  have hperm := List.mergeSort_perm
    (db.plagiarism_matches.filter fun x => x.assignment_id == aid)
    fun a b => decide (b.similarity_score ≤ a.similarity_score)
  have hmaid : m ∈ db.plagiarism_matches.filter fun x => x.assignment_id == aid :=
    List.mem_filter.mpr ⟨hm, beq_iff_eq.mpr haid⟩
  have hmsorted : m ∈ (db.plagiarism_matches.filter
      fun x => x.assignment_id == aid).mergeSort
        (fun a b => decide (b.similarity_score ≤ a.similarity_score)) :=
    hperm.mem_iff.mpr hmaid
  have hmthresh : m ∈ ((db.plagiarism_matches.filter
      fun x => x.assignment_id == aid).mergeSort
        (fun a b => decide (b.similarity_score ≤ a.similarity_score))).filter
        (fun x => decide (θ ≤ x.similarity_score)) :=
    List.mem_filter.mpr ⟨hmsorted, decide_eq_true hθ⟩
  have hinj := List.inj_on_of_nodup_map hnd
  refine ⟨?_, (report_counts db aid θ).1, (report_counts db aid θ).2.1,
    (report_counts db aid θ).2.2, ?_⟩
  · intro r hr
    simp only [get_plagiarism_report] at hr
    obtain ⟨m2, hm2, hres2⟩ := List.mem_filterMap.mp hr
    intro hid
    have hm2aid : m2 ∈ db.plagiarism_matches.filter fun x => x.assignment_id == aid :=
      hperm.subset (List.mem_of_mem_filter hm2)
    have hm2id : m2.id = m.id := by rw [← resolveMatch_id db m2 r hres2, hid]
    have : m2 = m := hinj hm2aid hmaid hm2id
    rw [this, hnone] at hres2
    cases hres2
  · have hlt : ((((db.plagiarism_matches.filter
        fun x => x.assignment_id == aid).mergeSort
          (fun a b => decide (b.similarity_score ≤ a.similarity_score))).filter
          (fun x => decide (θ ≤ x.similarity_score))).filterMap
          (resolveMatch db)).length
        < (((db.plagiarism_matches.filter
        fun x => x.assignment_id == aid).mergeSort
          (fun a b => decide (b.similarity_score ≤ a.similarity_score))).filter
          (fun x => decide (θ ≤ x.similarity_score))).length :=
      length_filterMap_lt _ _ m hmthresh hnone
    have hle := List.length_filter_le (fun x => decide (θ ≤ x.similarity_score))
      ((db.plagiarism_matches.filter fun x => x.assignment_id == aid).mergeSort
        (fun a b => decide (b.similarity_score ≤ a.similarity_score)))
    simp only [get_plagiarism_report]
    exact lt_of_lt_of_le hlt hle

/-- C10, witness: the dangling database from C4's counterexample satisfies
every hypothesis with `m90` as the orphaned match. -/
theorem claim_C10_witness :
    ((dbDangling.plagiarism_matches.filter fun x => x.assignment_id == "a1").map
      MatchRow.id).Nodup
    ∧ m90 ∈ dbDangling.plagiarism_matches
    ∧ m90.assignment_id = "a1"
    ∧ resolveMatch dbDangling m90 = none
    ∧ (70 : ℝ) ≤ m90.similarity_score
    ∧ ((∀ r ∈ (get_plagiarism_report dbDangling ("a1") 70).matchEntries, r.id ≠ m90.id)
      ∧ (get_plagiarism_report dbDangling ("a1") 70).total_comparisons
          = (dbDangling.plagiarism_matches.filter fun x => x.assignment_id == "a1").length
      ∧ (get_plagiarism_report dbDangling ("a1") 70).high_similarity_count
          = ((dbDangling.plagiarism_matches.filter fun x => x.assignment_id == "a1").filter
              fun x => decide ((70 : ℝ) < x.similarity_score)).length
      ∧ (get_plagiarism_report dbDangling ("a1") 70).medium_similarity_count
          = ((dbDangling.plagiarism_matches.filter fun x => x.assignment_id == "a1").filter
              fun x => decide ((50 : ℝ) ≤ x.similarity_score ∧
                x.similarity_score ≤ 70)).length
      ∧ (get_plagiarism_report dbDangling ("a1") 70).matchEntries.length
          < (get_plagiarism_report dbDangling ("a1") 70).total_comparisons) := by
  have h1 : ((dbDangling.plagiarism_matches.filter
      fun x => x.assignment_id == "a1").map MatchRow.id).Nodup := by
    simp [dbDangling, m90]
  have h5 : (70 : ℝ) ≤ m90.similarity_score := by norm_num [m90]
  exact ⟨h1, List.mem_cons_self _ _, rfl, rfl, h5,
    claim_C10 dbDangling ("a1") 70 m90 h1 (List.mem_cons_self _ _) rfl rfl h5⟩

end Plag

namespace Plag

theorem pdfPagesText_ok (texts : List String) :
    pdfPagesText (texts.map Except.ok)
      = Except.ok (texts.foldr (fun t acc => t ++ "\n" ++ acc) "") := by
  induction texts with
  | nil => rfl
  | cons t ts ih =>
    simp only [List.map_cons, pdfPagesText, ih, List.foldr_cons]

theorem pdfPagesText_error (pages : List (Except String String)) (e : String)
    (he : Except.error e ∈ pages) :
    ∃ e2, pdfPagesText pages = Except.error e2 := by
  induction pages with
  | nil => cases he
  | cons p rest ih =>
    cases p with
    | error e3 => exact ⟨e3, rfl⟩
    | ok t =>
      rcases List.mem_cons.mp he with heq | hmem
      · cases heq
      · obtain ⟨e2, h2⟩ := ih hmem
        refine ⟨e2, ?_⟩
        simp only [pdfPagesText, h2]

/-- C9, counterexample: a two-page document whose second page raises loses
its first page as well — extraction yields `""`, not `"hello\n"`; removing
the failing page restores `"hello\n"`, which shows the whole-file collapse is
caused by the failing page and is not a skip-and-continue. -/
theorem claim_C9_counterexample :
    extract_text_from_pdf envPdfBadPage.pdfLib ("doc.pdf") = ""
    ∧ extract_text_from_pdf envPdfGood.pdfLib ("doc.pdf") = "hello\n" := by
  constructor
  · rfl
  · decide

/-- C9, amended: when the PDF reader succeeds, extraction returns the
concatenation of each page's text followed by a newline if every page
extracts, and returns `""` for the whole file if any single page's extraction
fails (the exception propagates; other pages' text is discarded). -/
theorem claim_C9_amended
    (readPdf : String → Except String (List (Except String String)))
    (fp : String) (pages : List (Except String String))
    (hread : readPdf fp = Except.ok pages) :
    (∀ texts : List String, pages = texts.map Except.ok →
      extract_text_from_pdf (some readPdf) fp
        = texts.foldr (fun t acc => t ++ "\n" ++ acc) "")
    ∧ ∀ e : String, Except.error e ∈ pages →
        extract_text_from_pdf (some readPdf) fp = "" := by
  constructor
  · intro texts htexts
    simp only [extract_text_from_pdf, hread, htexts, pdfPagesText_ok]
  · intro e he
    obtain ⟨e2, h2⟩ := pdfPagesText_error pages e he
    simp only [extract_text_from_pdf, hread, h2]

/-- C9, amended, witness: a concrete reader whose document has one good page
and one failing page. -/
theorem claim_C9_amended_witness :
    ((fun _ : String =>
        (Except.ok [Except.ok "hello", Except.error "bad page"] :
          Except String (List (Except String String)))) ("doc.pdf")
        = Except.ok [Except.ok "hello", Except.error "bad page"])
    ∧ (Except.error "bad page" : Except String String)
        ∈ [Except.ok "hello", Except.error "bad page"]
    ∧ extract_text_from_pdf
        (some fun _ : String =>
          (Except.ok [Except.ok "hello", Except.error "bad page"] :
            Except String (List (Except String String))))
        ("doc.pdf") = "" := by
  have hmem : (Except.error "bad page" : Except String String)
      ∈ [Except.ok "hello", Except.error "bad page"] := by simp
  refine ⟨rfl, hmem, ?_⟩
  exact (claim_C9_amended
    (fun _ : String =>
      (Except.ok [Except.ok "hello", Except.error "bad page"] :
        Except String (List (Except String String))))
    ("doc.pdf") [Except.ok "hello", Except.error "bad page"] rfl).2 "bad page" hmem

/-- C8: `extract_text_from_file` is total, and every failure condition — the
file missing, the selected library unavailable, the reader raising, a PDF
page raising, or the plain-text read raising — yields the empty string. -/
theorem claim_C8 (env : ExtractEnv) (fp : String) (h : extractionFails env fp) :
    extract_text_from_file env fp = "" := by
  unfold extractionFails at h
  rcases h with h | h
  · unfold extract_text_from_file
    rw [if_pos h]
  · by_cases hex : env.fileExists fp = false
    · unfold extract_text_from_file
      rw [if_pos hex]
    · unfold extract_text_from_file
      rw [if_neg hex]
      dsimp only at h ⊢
      by_cases h1 : fileExt fp = ".pdf"
      · rw [if_pos h1] at h ⊢
        rcases h with h | ⟨readPdf, hlib, hfail⟩
        · simp [extract_text_from_pdf, h]
        · rcases hfail with ⟨e, he⟩ | ⟨pages, hpg, e, he⟩
          · simp [extract_text_from_pdf, hlib, he]
          · simp [extract_text_from_pdf, hlib, hpg, he]
      · rw [if_neg h1] at h ⊢
        by_cases h2 : fileExt fp = ".docx" ∨ fileExt fp = ".doc"
        · rw [if_pos h2] at h ⊢
          rcases h with h | ⟨readDocx, hlib, e, he⟩
          · simp [extract_text_from_docx, h]
          · simp [extract_text_from_docx, hlib, he]
        · rw [if_neg h2] at h ⊢
          by_cases h3 : fileExt fp = ".xlsx" ∨ fileExt fp = ".xls"
          · rw [if_pos h3] at h ⊢
            rcases h with h | ⟨readXlsx, hlib, e, he⟩
            · simp [extract_text_from_xlsx, h]
            · simp [extract_text_from_xlsx, hlib, he]
          · rw [if_neg h3] at h ⊢
            obtain ⟨e, he⟩ := h
            by_cases h4 : fileExt fp = ".txt" ∨ fileExt fp = ""
            · rw [if_pos h4]
              rw [he]
            · rw [if_neg h4]
              rw [he]

/-- C8, witness: a missing file extracts to the empty string. -/
theorem claim_C8_witness :
    extractionFails envMissing ("x.txt")
    ∧ extract_text_from_file envMissing ("x.txt") = "" :=
  ⟨Or.inl rfl, claim_C8 envMissing ("x.txt") (Or.inl rfl)⟩

end Plag
